import Mathlib

/-!
Verification of the Recall memory-game round controller.

The definitions below are a shallow embedding of the TypeScript page
component: strings are `List Char`, the session state is an explicit
structure, timer scheduling is modelled as explicit lists of pending
task ids, and the random source is an explicit stream of digit draws
(`Nat → Fin 10`, one draw per position, each in 0..9 exactly as
`Math.floor(Math.random() * 10)` is).
-/

namespace Recall

/-- The four phases of one game round. -/
inductive Phase where
  | ready
  | show
  | input
  | result
deriving DecidableEq

/-- `TIME_PER_DIGIT = 650` ms. -/
def TIME_PER_DIGIT : Nat := 650

/-- `MIN_TIME = 1200` ms. -/
def MIN_TIME : Nat := 1200

/-- `MAX_TIME = 6000` ms. -/
def MAX_TIME : Nat := 6000

/-- `Math.min(MAX_TIME, Math.max(MIN_TIME, nextLevel * TIME_PER_DIGIT))`,
the show-phase duration computed inside `startRound`. -/
def duration (nextLevel : Nat) : Nat :=
  min MAX_TIME (max MIN_TIME (nextLevel * TIME_PER_DIGIT))

/-- Left-to-right chunking of a character list into groups of at most
`size` characters, at least one per group: the embedding of
`value.match(new RegExp('.\x7b1,size\x7d', 'g'))`.  The `fuel` argument is
always instantiated with the length of the list (see `chunksOf`), so the
fuel-exhausted fallback is never reached. -/
def chunksOfAux (size : Nat) : Nat → List Char → List (List Char)
  | _, [] => []
  | 0, l => [l]
  | fuel + 1, x :: xs =>
      (x :: xs.take (size - 1)) :: chunksOfAux size fuel (xs.drop (size - 1))

/-- Groups of at most `size` characters, scanning from the left. -/
def chunksOf (size : Nat) (l : List Char) : List (List Char) :=
  chunksOfAux size l.length l

/-- Join a list of groups with a separator character between adjacent
groups: the embedding of `Array.prototype.join`. -/
def intercalateSep (sep : Char) : List (List Char) → List Char
  | [] => []
  | [g] => g
  | g :: g' :: gs => g ++ sep :: intercalateSep sep (g' :: gs)

/-- `value.length % size || size`: the length of the leading group in
the right-aligned chunking (`0` is falsy in JavaScript, so a length
divisible by `size` gives a full first group). -/
def firstGroupLength (value : List Char) (size : Nat) : Nat :=
  if value.length % size = 0 then size else value.length % size

/-- The `chunkDigits` of the main page (`src/unnamed/part_000`): take the
first `value.length % size || size` characters, chunk the rest from the
left in groups of `size`, and join with commas.  An empty rest produces
no separator (`rest` is `undefined`/empty, hence falsy). -/
def chunkDigitsL (value : List Char) (size : Nat) : List Char :=
  match chunksOf size (value.drop (firstGroupLength value size)) with
  | [] => value.take (firstGroupLength value size)
  | g :: gs =>
      value.take (firstGroupLength value size) ++ ',' :: intercalateSep ',' (g :: gs)

/-- String-level wrapper of `chunkDigitsL`. -/
def chunkDigits (value : String) (size : Nat) : String :=
  String.mk (chunkDigitsL value.data size)

/-- The `chunkDigits` of `src/packages/app/src/pages/index.tsx`:
`value.match(/.\x7b1,3\x7d/g)?.join(' ') ?? value` — left-aligned groups
joined with spaces; `match` is `null` exactly on the empty string, in
which case the original value is returned. -/
def chunkDigitsApp (value : List Char) (size : Nat) : List Char :=
  match chunksOf size value with
  | [] => value
  | g :: gs => intercalateSep ' ' (g :: gs)

/-- `Array.from({length}, () => Math.floor(Math.random() * 10)).join('')`:
one independent draw in 0..9 per position, rendered as its decimal digit
character. -/
def generateNumber (length : Nat) (rand : Nat → Fin 10) : List Char :=
  (List.range length).map (fun i => Char.ofNat (48 + (rand i).val))

/-- The opening of the red highlight span wrapped around a mismatched
digit by `highlightMistakes`. -/
def spanOpen : List Char := "<span class=\"text-red-500 font-bold\">".data

/-- The closing tag of the highlight span. -/
def spanClose : List Char := "</span>".data

/-- Per-position pieces of `highlightMistakes`: position `k + i` of the
input is compared against `correct[k + i]`; a match keeps the bare
digit, a mismatch (including an out-of-range index, where the JavaScript
lookup is `undefined`) wraps it in the red span. -/
def highlightFrom (correct : List Char) : Nat → List Char → List (List Char)
  | _, [] => []
  | k, d :: rest =>
      (if correct[k]? = some d then [d] else spanOpen ++ d :: spanClose)
        :: highlightFrom correct (k + 1) rest

/-- `highlightMistakes(input, correct)`: map each input character to its
(possibly span-wrapped) rendering and join. -/
def highlightMistakes (input correct : List Char) : List Char :=
  (highlightFrom correct 0 input).flatten

/-- A rendered piece is flagged iff it is not a single bare character. -/
def isFlagged (piece : List Char) : Bool :=
  piece.length != 1

/-- The success message of `submit`. -/
def correctMessage : List Char := "Correct! Level up 🎉".data

/-- The failure message of `submit`, including the comma-grouped target
and the per-position highlighted input. -/
def wrongMessage (number input : List Char) : List Char :=
  "Wrong 😢 The number was <span class=\"font-bold\">".data ++
    chunkDigitsL number 3 ++
    "</span><br/>Your input: <span>".data ++
    highlightMistakes input number ++
    "</span>".data

/-- The whole mutable state of the page component.  The React state
hooks become fields; the two timer refs (`timerRef`, `intervalRef`)
hold the ids of the most recently scheduled timeout/interval, and
`timeouts`/`intervals` are the sets (as lists) of ids still pending in
the event loop.  `roundDuration` records the delay passed to the
phase-transition `setTimeout` of the current round.  `countdown` is an
integer because `setCountdown((c) => Math.max(0, c - 1))` clamps a
value that would otherwise go negative. -/
structure GameState where
  lastRoundFailed : Bool
  phase : Phase
  level : Nat
  number : List Char
  input : List Char
  message : List Char
  countdown : Int
  highStreak : Nat
  roundDuration : Nat
  timeouts : List Nat
  intervals : List Nat
  timerRef : Option Nat
  intervalRef : Option Nat
  nextId : Nat
deriving DecidableEq

/-- `clearTimers`: `clearTimeout(timerRef.current)` and
`clearInterval(intervalRef.current)` — remove the referenced ids from
the pending sets. -/
def clearTimers (s : GameState) : GameState :=
  { s with
    timeouts :=
      match s.timerRef with
      | some id => s.timeouts.erase id
      | none => s.timeouts
    intervals :=
      match s.intervalRef with
      | some id => s.intervals.erase id
      | none => s.intervals }

/-- `startRound(nextLevel)`: cancel the previous timers, generate a
fresh target of length `nextLevel`, reset the input, enter `show`,
initialise the countdown to `Math.ceil(duration / 1000)` (for a natural
`d`, `⌈d / 1000⌉ = (d + 999) / 1000` in integer arithmetic), and
schedule one new interval and one new timeout. -/
def startRound (nextLevel : Nat) (rand : Nat → Fin 10) (s : GameState) : GameState :=
  let s1 := clearTimers s
  { s1 with
    number := generateNumber nextLevel rand
    input := []
    phase := Phase.show
    countdown := (((duration nextLevel + 999) / 1000 : Nat) : Int)
    roundDuration := duration nextLevel
    intervals := s1.intervals ++ [s1.nextId]
    intervalRef := some s1.nextId
    timeouts := s1.timeouts ++ [s1.nextId + 1]
    timerRef := some (s1.nextId + 1)
    nextId := s1.nextId + 2 }

/-- `updateHighStreak(newStreak)`: replace the stored best streak with
`Math.max(prev, newStreak)` (and persist the same value). -/
def updateHighStreak (prev newStreak : Nat) : Nat :=
  max prev newStreak

/-- `submit()`: compare the typed input with the target.  Equality
bumps the level (`setLevel((l) => l + 1)`), feeds the pre-increment
`level` to `updateHighStreak`, and marks the round as passed; any
difference builds the highlighted failure message, resets the level to
1 and marks the round as failed.  Either way the phase becomes
`result`. -/
def submit (s : GameState) : GameState :=
  if s.input = s.number then
    { s with
      message := correctMessage
      level := s.level + 1
      highStreak := updateHighStreak s.highStreak s.level
      lastRoundFailed := false
      phase := Phase.result }
  else
    { s with
      message := wrongMessage s.number s.input
      level := 1
      lastRoundFailed := true
      phase := Phase.result }

/-- `start()`: `setLevel(1); setMessage(''); startRound(1)`. -/
def startGame (rand : Nat → Fin 10) (s : GameState) : GameState :=
  startRound 1 rand { s with level := 1, message := [] }

/-- `next()`: `setMessage(''); startRound(level)`. -/
def nextRound (rand : Nat → Fin 10) (s : GameState) : GameState :=
  startRound s.level rand { s with message := [] }

/-- One firing of the countdown interval:
`setCountdown((c) => Math.max(0, c - 1))`. -/
def tick (s : GameState) : GameState :=
  { s with countdown := max 0 (s.countdown - 1) }

/-- One firing of the phase-transition timeout: the fired timeout is no
longer pending and the callback runs `clearTimers()`, `setCountdown(0)`
and `setPhase('input')`. -/
def expire (s : GameState) : GameState :=
  let s1 := clearTimers s
  { s1 with countdown := 0, phase := Phase.input }

/-- `onChange` of the text field: the browser truncates the value to
`maxLength = number.length` before it reaches `setInput`. -/
def changeInput (t : List Char) (s : GameState) : GameState :=
  { s with input := t.take s.number.length }

/-- The operations of the round controller. -/
inductive Action where
  | start
  | next
  | submitInput
  | changeInput (t : List Char)
  | tick
  | expire

/-- Dispatch one controller operation. -/
def step (a : Action) (rand : Nat → Fin 10) (s : GameState) : GameState :=
  match a with
  | Action.start => startGame rand s
  | Action.next => nextRound rand s
  | Action.submitInput => submit s
  | Action.changeInput t => changeInput t s
  | Action.tick => tick s
  | Action.expire => expire s

/-- The state of the freshly mounted component, with `h` the best
streak read back from the external store. -/
def initState (h : Nat) : GameState :=
  { lastRoundFailed := false
    phase := Phase.ready
    level := 1
    number := []
    input := []
    message := []
    countdown := 0
    highStreak := h
    roundDuration := 0
    timeouts := []
    intervals := []
    timerRef := none
    intervalRef := none
    nextId := 0 }

/-- The submit button of the form is enabled only at full length
(`disabled = input.length !== number.length`) and the form handler
additionally requires a non-empty input (`if (input) submit()`); both
conditions gate the form path to `submit`. -/
def formSubmits (s : GameState) : Bool :=
  (s.input.length == s.number.length) && !s.input.isEmpty

/-- The window-level `keydown` handler path to `submit`:
`if (phase === 'input' && input) submit()` fires on Enter for any
non-empty input. -/
def keydownSubmits (s : GameState) : Bool :=
  decide (s.phase = Phase.input) && !s.input.isEmpty

/-- Some path of the UI can invoke `submit` in the current state. -/
def submitActionable (s : GameState) : Bool :=
  formSubmits s || keydownSubmits s

/-- Timer-bookkeeping invariant: every pending timeout (interval) is
the one the corresponding ref points to. -/
def timersTracked (s : GameState) : Prop :=
  (s.timeouts = [] ∨ s.timeouts = s.timerRef.toList) ∧
    (s.intervals = [] ∨ s.intervals = s.intervalRef.toList)

theorem chunksOfAux_flatten (size : Nat) :
    ∀ (fuel : Nat) (l : List Char), l.length ≤ fuel →
      (chunksOfAux size fuel l).flatten = l := by
  intro fuel
  induction fuel with
  | zero =>
      intro l hl
      have hnil : l = [] := List.eq_nil_of_length_eq_zero (Nat.le_zero.mp hl)
      subst hnil
      simp [chunksOfAux]
  | succ n ih =>
      intro l hl
      cases l with
      | nil => simp [chunksOfAux]
      | cons x xs =>
          simp only [chunksOfAux, List.flatten_cons]
          rw [ih (xs.drop (size - 1)) (by
            rw [List.length_drop]
            simp only [List.length_cons] at hl
            omega)]
          simp [List.cons_append, List.take_append_drop]

theorem chunksOf_flatten (size : Nat) (l : List Char) :
    (chunksOf size l).flatten = l :=
  chunksOfAux_flatten size l.length l le_rfl

theorem chunksOfAux_three_length :
    ∀ (fuel : Nat) (l : List Char), l.length ≤ fuel → l.length % 3 = 0 →
      ∀ g ∈ chunksOfAux 3 fuel l, g.length = 3 := by
  intro fuel
  induction fuel with
  | zero =>
      intro l hl _ g hg
      have hnil : l = [] := List.eq_nil_of_length_eq_zero (Nat.le_zero.mp hl)
      subst hnil
      simp [chunksOfAux] at hg
  | succ n ih =>
      intro l hl hmod g hg
      cases l with
      | nil => simp [chunksOfAux] at hg
      | cons x xs =>
          simp only [List.length_cons] at hl hmod
          have hxs : 2 ≤ xs.length := by omega
          simp only [chunksOfAux] at hg
          rcases List.mem_cons.mp hg with h | h
          · subst h
            simp only [List.length_cons, List.length_take]
            omega
          · refine ih (xs.drop 2) ?_ ?_ g h
            · rw [List.length_drop]; omega
            · rw [List.length_drop]; omega

theorem chunksOf_three_length (l : List Char) (hmod : l.length % 3 = 0) :
    ∀ g ∈ chunksOf 3 l, g.length = 3 :=
  chunksOfAux_three_length l.length l le_rfl hmod

theorem filter_intercalateSep (sep : Char) :
    ∀ gs : List (List Char),
      (intercalateSep sep gs).filter (fun c => c != sep) =
        gs.flatten.filter (fun c => c != sep) := by
  intro gs
  induction gs with
  | nil => rfl
  | cons g tail ih =>
      cases tail with
      | nil => simp [intercalateSep]
      | cons g2 gs2 =>
          simp only [intercalateSep, List.flatten_cons, List.filter_append] at ih ⊢
          rw [List.filter_cons_of_neg (by simp)]
          rw [ih]

theorem highlightFrom_getElem (cor : List Char) :
    ∀ (l : List Char) (i k : Nat) (d : Char), l[i]? = some d →
      (highlightFrom cor k l)[i]? =
        some (if cor[k + i]? = some d then [d] else spanOpen ++ d :: spanClose) := by
  intro l
  induction l with
  | nil =>
      intro i k d h
      simp at h
  | cons x xs ih =>
      intro i k d h
      cases i with
      | zero =>
          simp only [List.getElem?_cons_zero, Option.some.injEq] at h
          subst h
          simp [highlightFrom]
      | succ i =>
          simp only [List.getElem?_cons_succ] at h
          simp only [highlightFrom, List.getElem?_cons_succ]
          have harith : k + (i + 1) = (k + 1) + i := by omega
          rw [harith]
          exact ih i (k + 1) d h

theorem natCeilDiv_eq_ceil (d : Nat) :
    (((d + 999) / 1000 : Nat) : Int) = Int.ceil ((d : ℚ) / 1000) := by
  set q : Nat := (d + 999) / 1000 with hq
  have h1 : q * 1000 ≤ d + 999 := by
    rw [hq]; exact Nat.div_mul_le_self (d + 999) 1000
  have h2 : d + 999 < (q + 1) * 1000 := by
    rw [hq]; exact (Nat.div_lt_iff_lt_mul (by norm_num)).mp (Nat.lt_succ_self _)
  have h3 : d ≤ q * 1000 := by omega
  symm
  apply Int.ceil_eq_iff.mpr
  constructor
  · rw [lt_div_iff₀ (by norm_num : (0:ℚ) < 1000)]
    have h1' : (q : ℚ) * 1000 ≤ (d : ℚ) + 999 := by exact_mod_cast h1
    push_cast
    linarith
  · rw [div_le_iff₀ (by norm_num : (0:ℚ) < 1000)]
    have h3' : (d : ℚ) ≤ (q : ℚ) * 1000 := by exact_mod_cast h3
    push_cast
    linarith

theorem clearTimers_clears (s : GameState) (h : timersTracked s) :
    (clearTimers s).timeouts = [] ∧ (clearTimers s).intervals = [] := by
  obtain ⟨h1, h2⟩ := h
  constructor
  · cases href : s.timerRef with
    | none => rcases h1 with h1 | h1 <;> simp_all [clearTimers, Option.toList]
    | some id => rcases h1 with h1 | h1 <;> simp_all [clearTimers, Option.toList]
  · cases href : s.intervalRef with
    | none => rcases h2 with h2 | h2 <;> simp_all [clearTimers, Option.toList]
    | some id => rcases h2 with h2 | h2 <;> simp_all [clearTimers, Option.toList]

/-- Modelled from the spec: `clamp(x, lo, hi)`. -/
def clampSpec (x lo hi : Nat) : Nat := min hi (max lo x)

/-- C3: for every level `L ≥ 1`, the show-phase duration used when
starting a round is `clamp(L × 650, 1200, 6000)` milliseconds, with
`duration 1 = 1200`, `duration 2 = 1300` and `duration 10 = 6000`. -/
theorem duration_is_clamp (L : Nat) (r : Nat → Fin 10) (s : GameState) (hL : 1 ≤ L) :
    duration L = clampSpec (L * 650) 1200 6000 ∧
    (startRound L r s).roundDuration = clampSpec (L * 650) 1200 6000 ∧
    duration 1 = 1200 ∧ duration 2 = 1300 ∧ duration 10 = 6000 := by
  refine ⟨rfl, ?_, by decide, by decide, by decide⟩
  simp [startRound]
  rfl

theorem duration_is_clamp_witness :
    duration 10 = clampSpec (10 * 650) 1200 6000 ∧
    (startRound 10 (fun _ => (0 : Fin 10)) (initState 0)).roundDuration =
      clampSpec (10 * 650) 1200 6000 ∧
    duration 1 = 1200 ∧ duration 2 = 1300 ∧ duration 10 = 6000 :=
  duration_is_clamp 10 (fun _ => (0 : Fin 10)) (initState 0) (by decide)

/-- C6: no controller operation ever decreases the best streak, and
the only update replaces it with the maximum of the stored and the new
value. -/
theorem highStreak_monotone (a : Action) (r : Nat → Fin 10) (s : GameState) :
    s.highStreak ≤ (step a r s).highStreak := by
  cases a with
  | start => simp [step, startGame, startRound, clearTimers]
  | next => simp [step, nextRound, startRound, clearTimers]
  | submitInput =>
      simp only [step, submit]
      split
      · simp [updateHighStreak]
      · simp
  | changeInput t => simp [step, changeInput]
  | tick => simp [step, tick]
  | expire => simp [step, expire, clearTimers]

/-- C9: `generateNumber L` is a string of exactly `L` characters, each
a decimal digit, and the target generated by `startRound` at level `L`
has length `L`. -/
theorem generateNumber_spec (L : Nat) (r : Nat → Fin 10) (s : GameState) (hL : 1 ≤ L) :
    (generateNumber L r).length = L ∧
    (∀ c ∈ generateNumber L r, c.isDigit = true) ∧
    (startRound L r s).number = generateNumber L r ∧
    (startRound L r s).number.length = L := by
  have hlen : (generateNumber L r).length = L := by simp [generateNumber]
  have hdig : ∀ c ∈ generateNumber L r, c.isDigit = true := by
    intro c hc
    simp only [generateNumber, List.mem_map, List.mem_range] at hc
    obtain ⟨i, _, rfl⟩ := hc
    have hall : ∀ d : Fin 10, (Char.ofNat (48 + d.val)).isDigit = true := by decide
    exact hall (r i)
  refine ⟨hlen, hdig, ?_, ?_⟩
  · simp [startRound]
  · simp [startRound, hlen]

theorem generateNumber_spec_witness :
    (generateNumber 2 (fun _ => (7 : Fin 10))).length = 2 ∧
    (∀ c ∈ generateNumber 2 (fun _ => (7 : Fin 10)), c.isDigit = true) ∧
    (startRound 2 (fun _ => (7 : Fin 10)) (initState 0)).number =
      generateNumber 2 (fun _ => (7 : Fin 10)) ∧
    (startRound 2 (fun _ => (7 : Fin 10)) (initState 0)).number.length = 2 :=
  generateNumber_spec 2 (fun _ => (7 : Fin 10)) (initState 0) (by decide)

theorem isFlagged_single (d : Char) : isFlagged [d] = false := by
  simp [isFlagged]

theorem isFlagged_span (d : Char) : isFlagged (spanOpen ++ d :: spanClose) = true := by
  have h1 : spanOpen.length = 37 := rfl
  have h2 : spanClose.length = 7 := rfl
  simp [isFlagged, List.length_append, h1, h2]

/-- A session in the middle of the input phase whose typed input
matches the target. -/
def sampleSuccess : GameState :=
  { initState 5 with phase := Phase.input, level := 2, number := ['4', '2'], input := ['4', '2'] }

/-- A session in the middle of the input phase whose typed input
differs from the target in the first position. -/
def sampleFailure : GameState :=
  { initState 5 with phase := Phase.input, level := 3, number := ['4', '2'], input := ['1', '2'] }

/-- C1: in phase `input`, submitting an input equal to the target moves
to `result`, clears `lastRoundFailed`, increments the level by exactly
one, and raises the best streak to the maximum of its old value and the
pre-increment level. -/
theorem submit_success (s : GameState) (hphase : s.phase = Phase.input)
    (heq : s.input = s.number) :
    (submit s).phase = Phase.result ∧
    (submit s).lastRoundFailed = false ∧
    (submit s).level = s.level + 1 ∧
    (submit s).highStreak = max s.highStreak s.level := by
  simp [submit, heq, updateHighStreak]

theorem submit_success_witness :
    (submit sampleSuccess).phase = Phase.result ∧
    (submit sampleSuccess).lastRoundFailed = false ∧
    (submit sampleSuccess).level = sampleSuccess.level + 1 ∧
    (submit sampleSuccess).highStreak = max sampleSuccess.highStreak sampleSuccess.level :=
  submit_success sampleSuccess rfl rfl

/-- C2: in phase `input`, submitting an input different from the target
moves to `result`, sets `lastRoundFailed`, resets the level to 1, and in
the highlighted rendering a position is flagged exactly when the typed
character differs from the target character at that position. -/
theorem submit_failure (s : GameState) (hphase : s.phase = Phase.input)
    (hne : s.input ≠ s.number) :
    (submit s).phase = Phase.result ∧
    (submit s).lastRoundFailed = true ∧
    (submit s).level = 1 ∧
    (submit s).message = wrongMessage s.number s.input ∧
    ∀ (i : Nat) (d : Char), s.input[i]? = some d →
      ∃ piece, (highlightFrom s.number 0 s.input)[i]? = some piece ∧
        (isFlagged piece = true ↔ ¬ s.number[i]? = some d) := by
  refine ⟨by simp [submit, hne], by simp [submit, hne], by simp [submit, hne],
    by simp [submit, hne], ?_⟩
  intro i d h
  have hg := highlightFrom_getElem s.number s.input i 0 d h
  simp only [Nat.zero_add] at hg
  by_cases hcmp : s.number[i]? = some d
  · rw [if_pos hcmp] at hg
    exact ⟨[d], hg, by simp [isFlagged_single, hcmp]⟩
  · rw [if_neg hcmp] at hg
    exact ⟨spanOpen ++ d :: spanClose, hg, by simp [isFlagged_span, hcmp]⟩

theorem submit_failure_witness :
    (submit sampleFailure).phase = Phase.result ∧
    (submit sampleFailure).lastRoundFailed = true ∧
    (submit sampleFailure).level = 1 ∧
    (submit sampleFailure).message = wrongMessage sampleFailure.number sampleFailure.input ∧
    ∀ (i : Nat) (d : Char), sampleFailure.input[i]? = some d →
      ∃ piece, (highlightFrom sampleFailure.number 0 sampleFailure.input)[i]? = some piece ∧
        (isFlagged piece = true ↔ ¬ sampleFailure.number[i]? = some d) :=
  submit_failure sampleFailure rfl (by decide)

/-- C7: the countdown starts at `⌈duration(L) / 1000⌉` seconds, each
interval tick replaces it with `max 0 (c - 1)` (an exact decrement
while positive), every controller operation keeps it non-negative, and
a tick firing after the phase-transition timeout still leaves it at a
non-negative value. -/
theorem countdown_spec (L : Nat) (a : Action) (r r2 : Nat → Fin 10) (s : GameState)
    (hL : 1 ≤ L) (hc : 0 ≤ s.countdown) :
    (startRound L r s).countdown = Int.ceil ((duration L : ℚ) / 1000) ∧
    (tick s).countdown = max 0 (s.countdown - 1) ∧
    (0 < s.countdown → (tick s).countdown = s.countdown - 1) ∧
    0 ≤ (step a r2 s).countdown ∧
    0 ≤ (tick (expire s)).countdown := by
  refine ⟨?_, rfl, ?_, ?_, ?_⟩
  · simp only [startRound]
    exact natCeilDiv_eq_ceil (duration L)
  · intro hpos
    simp only [tick]
    exact max_eq_right (by omega)
  · cases a with
    | start =>
        simp only [step, startGame, startRound]
        exact Int.natCast_nonneg _
    | next =>
        simp only [step, nextRound, startRound]
        exact Int.natCast_nonneg _
    | submitInput =>
        simp only [step, submit]
        split <;> simpa using hc
    | changeInput t => simpa [step, changeInput] using hc
    | tick =>
        simp only [step, tick]
        exact le_max_left 0 _
    | expire => simp [step, expire]
  · simp only [tick, expire]
    exact le_max_left 0 _

theorem countdown_spec_witness :
    (1 ≤ 1 ∧ 0 ≤ (initState 0).countdown) ∧
    ((startRound 1 (fun _ => (0 : Fin 10)) (initState 0)).countdown =
        Int.ceil ((duration 1 : ℚ) / 1000) ∧
      (tick (initState 0)).countdown = max 0 ((initState 0).countdown - 1) ∧
      (0 < (initState 0).countdown →
        (tick (initState 0)).countdown = (initState 0).countdown - 1) ∧
      0 ≤ (step Action.tick (fun _ => (0 : Fin 10)) (initState 0)).countdown ∧
      0 ≤ (tick (expire (initState 0))).countdown) :=
  ⟨⟨by decide, by decide⟩,
    countdown_spec 1 Action.tick (fun _ => (0 : Fin 10)) (fun _ => (0 : Fin 10))
      (initState 0) (by decide) (by decide)⟩

theorem startRound_timers (L : Nat) (r : Nat → Fin 10) (s : GameState)
    (h : timersTracked s) :
    (startRound L r s).timeouts = [s.nextId + 1] ∧
    (startRound L r s).intervals = [s.nextId] ∧
    (startRound L r s).input = [] ∧
    timersTracked (startRound L r s) := by
  obtain ⟨ht, hi⟩ := clearTimers_clears s h
  refine ⟨?_, ?_, rfl, ?_, ?_⟩
  · simp only [startRound, ht, List.nil_append]
    rfl
  · simp only [startRound, hi, List.nil_append]
    rfl
  · right
    simp [startRound, ht, Option.toList]
  · right
    simp [startRound, hi, Option.toList]

theorem startGame_timers (r : Nat → Fin 10) (s : GameState) (h : timersTracked s) :
    (startGame r s).timeouts.length = 1 ∧
    (startGame r s).intervals.length = 1 ∧
    (startGame r s).input = [] ∧
    timersTracked (startGame r s) := by
  obtain ⟨h1, h2, h3, h4⟩ :=
    startRound_timers 1 r { s with level := 1, message := [] } h
  exact ⟨by rw [startGame, h1]; rfl, by rw [startGame, h2]; rfl, h3, h4⟩

/-- C8: starting a round from any state whose pending timers are the
ones the refs track cancels them and schedules exactly one new timeout
and one new interval, clearing the typed input; in particular after two
consecutive `start` actions exactly one deferred phase transition and
one periodic tick remain pending. -/
theorem timer_cancellation (L : Nat) (r r1 r2 : Nat → Fin 10) (s : GameState)
    (h : timersTracked s) :
    (startRound L r s).timeouts.length = 1 ∧
    (startRound L r s).intervals.length = 1 ∧
    (startRound L r s).input = [] ∧
    timersTracked (startRound L r s) ∧
    (step Action.start r2 (step Action.start r1 s)).timeouts.length = 1 ∧
    (step Action.start r2 (step Action.start r1 s)).intervals.length = 1 ∧
    (step Action.start r2 (step Action.start r1 s)).input = [] := by
  obtain ⟨a1, a2, a3, a4⟩ := startRound_timers L r s h
  obtain ⟨b1, b2, b3, b4⟩ := startGame_timers r1 s h
  obtain ⟨c1, c2, c3, _⟩ := startGame_timers r2 (startGame r1 s) b4
  exact ⟨by rw [a1]; rfl, by rw [a2]; rfl, a3, a4, c1, c2, c3⟩

theorem timer_cancellation_witness :
    (startRound 4 (fun _ => (0 : Fin 10)) (initState 0)).timeouts.length = 1 ∧
    (startRound 4 (fun _ => (0 : Fin 10)) (initState 0)).intervals.length = 1 ∧
    (startRound 4 (fun _ => (0 : Fin 10)) (initState 0)).input = [] ∧
    timersTracked (startRound 4 (fun _ => (0 : Fin 10)) (initState 0)) ∧
    (step Action.start (fun _ => (0 : Fin 10))
        (step Action.start (fun _ => (0 : Fin 10)) (initState 0))).timeouts.length = 1 ∧
    (step Action.start (fun _ => (0 : Fin 10))
        (step Action.start (fun _ => (0 : Fin 10)) (initState 0))).intervals.length = 1 ∧
    (step Action.start (fun _ => (0 : Fin 10))
        (step Action.start (fun _ => (0 : Fin 10)) (initState 0))).input = [] :=
  timer_cancellation 4 (fun _ => (0 : Fin 10)) (fun _ => (0 : Fin 10))
    (fun _ => (0 : Fin 10)) (initState 0) ⟨Or.inl rfl, Or.inl rfl⟩

theorem chunkDigitsL_eq (s : List Char) :
    chunkDigitsL s 3 = intercalateSep ','
      (s.take (firstGroupLength s 3) :: chunksOf 3 (s.drop (firstGroupLength s 3))) := by
  cases hch : chunksOf 3 (s.drop (firstGroupLength s 3)) with
  | nil => simp [chunkDigitsL, hch, intercalateSep]
  | cons g1 gs1 => simp [chunkDigitsL, hch, intercalateSep]

/-- C4: `chunkDigits` splits its argument, from the right, into
comma-separated chunks of width 3 whose leading group has length
`len % 3` (or 3 when the length is divisible by 3): the emitted groups
concatenate back to the input, the first has exactly the leading-group
length and every later one has length exactly 3; in particular
`chunkDigits "1234567" = "1,234,567"`. -/
theorem chunkDigits_right_grouping (s : List Char) (hs : s ≠ []) :
    chunkDigits "1234567" 3 = "1,234,567" ∧
    ∃ g gs, chunkDigitsL s 3 = intercalateSep ',' (g :: gs) ∧
      (g :: gs).flatten = s ∧
      g.length = (if s.length % 3 = 0 then 3 else s.length % 3) ∧
      ∀ g2 ∈ gs, g2.length = 3 := by
  have hpos : 0 < s.length := List.length_pos.mpr hs
  have hfg : firstGroupLength s 3 ≤ s.length := by
    rw [firstGroupLength]
    split
    · omega
    · exact Nat.mod_le s.length 3
  have hdropmod : (s.drop (firstGroupLength s 3)).length % 3 = 0 := by
    rw [List.length_drop, firstGroupLength]
    split
    · omega
    · omega
  refine ⟨by decide,
    s.take (firstGroupLength s 3), chunksOf 3 (s.drop (firstGroupLength s 3)),
    chunkDigitsL_eq s, ?_, ?_, chunksOf_three_length _ hdropmod⟩
  · simp only [List.flatten_cons]
    rw [chunksOf_flatten]
    exact List.take_append_drop _ s
  · rw [List.length_take, Nat.min_eq_left hfg]
    rfl

theorem chunkDigits_right_grouping_witness :
    chunkDigits "1234567" 3 = "1,234,567" ∧
    ∃ g gs, chunkDigitsL "1234567".data 3 = intercalateSep ',' (g :: gs) ∧
      (g :: gs).flatten = "1234567".data ∧
      g.length =
        (if "1234567".data.length % 3 = 0 then 3 else "1234567".data.length % 3) ∧
      ∀ g2 ∈ gs, g2.length = 3 :=
  chunkDigits_right_grouping "1234567".data (by decide)

/-- C10: both chunking implementations only insert separators — erasing
the commas (respectively spaces) recovers the input character for
character, and the empty string maps to the empty string. -/
theorem chunkDigits_content_preserving (s : List Char)
    (hd : ∀ ch ∈ s, ch.isDigit = true) :
    (chunkDigitsL s 3).filter (fun ch => ch != ',') = s ∧
    (chunkDigitsApp s 3).filter (fun ch => ch != ' ') = s ∧
    chunkDigitsL [] 3 = [] ∧
    chunkDigitsApp [] 3 = [] ∧
    chunkDigits "" 3 = "" := by
  have hs1 : ∀ ch ∈ s, (ch != ',') = true := by
    intro ch h
    have hch := hd ch h
    rw [bne_iff_ne]
    intro he
    subst he
    exact absurd hch (by decide)
  have hs2 : ∀ ch ∈ s, (ch != ' ') = true := by
    intro ch h
    have hch := hd ch h
    rw [bne_iff_ne]
    intro he
    subst he
    exact absurd hch (by decide)
  refine ⟨?_, ?_, rfl, rfl, rfl⟩
  · rw [chunkDigitsL_eq, filter_intercalateSep, List.flatten_cons, chunksOf_flatten,
      List.take_append_drop]
    exact List.filter_eq_self.mpr hs1
  · cases hch : chunksOf 3 s with
    | nil =>
        have hnil : s = [] := by
          have hfl := chunksOf_flatten 3 s
          rw [hch] at hfl
          exact hfl.symm
        subst hnil
        rfl
    | cons g gs =>
        have hfl : (g :: gs).flatten = s := by
          rw [← hch]
          exact chunksOf_flatten 3 s
        simp only [chunkDigitsApp, hch]
        rw [filter_intercalateSep, hfl]
        exact List.filter_eq_self.mpr hs2

theorem chunkDigits_content_preserving_witness :
    (chunkDigitsL "1234567".data 3).filter (fun ch => ch != ',') = "1234567".data ∧
    (chunkDigitsApp "1234567".data 3).filter (fun ch => ch != ' ') = "1234567".data ∧
    chunkDigitsL [] 3 = [] ∧
    chunkDigitsApp [] 3 = [] ∧
    chunkDigits "" 3 = "" :=
  chunkDigits_content_preserving "1234567".data (by decide)

/-- A session in the input phase holding a strictly partial input: the
target has two digits, only one has been typed. -/
def cexPartialInput : GameState :=
  { initState 0 with phase := Phase.input, number := ['4', '2'], input := ['4'] }

/-- C5 counterexample: with a two-digit target and a one-digit typed
input, the window-level Enter handler path makes `submit` actionable
even though the input length differs from the target length. -/
theorem submit_actionable_counterexample :
    cexPartialInput.phase = Phase.input ∧
    submitActionable cexPartialInput = true ∧
    cexPartialInput.input.length ≠ cexPartialInput.number.length := by decide

/-- C5 (amended): the form path to `submit` is gated on full-length
input, and the field's `maxLength` keeps the typed input from growing
past the target length; the window-level Enter handler, however, only
requires a non-empty input. -/
theorem submit_guards (s : GameState) (t : List Char) :
    (formSubmits s = true → s.input.length = s.number.length ∧ s.input ≠ []) ∧
    (keydownSubmits s = true → s.phase = Phase.input ∧ s.input ≠ []) ∧
    (changeInput t s).input.length ≤ s.number.length := by
  refine ⟨?_, ?_, ?_⟩
  · intro hf
    simpa [formSubmits, List.isEmpty_iff] using hf
  · intro hk
    simpa [keydownSubmits, List.isEmpty_iff] using hk
  · simp only [changeInput, List.length_take]
    omega

theorem submit_guards_witness :
    (sampleSuccess.input.length = sampleSuccess.number.length ∧ sampleSuccess.input ≠ []) ∧
    (sampleSuccess.phase = Phase.input ∧ sampleSuccess.input ≠ []) ∧
    (changeInput ['1', '2', '3'] sampleSuccess).input.length ≤ sampleSuccess.number.length :=
  ⟨(submit_guards sampleSuccess ['1', '2', '3']).1 (by decide),
    (submit_guards sampleSuccess ['1', '2', '3']).2.1 (by decide),
    (submit_guards sampleSuccess ['1', '2', '3']).2.2⟩

end Recall
